import Mathlib

/-!
Verification development for the OpenCodeUI client-side session store:
the event-ingestion gateway (src/src/hooks/useGlobalEvents.ts), and the
message/part merge engine, history window manager and revert/redo
controller of the message store.  The message store implementation file
itself (src/store/messageStore.ts) is not part of the available sources
(only its re-export in src/src/store/index.ts and its callers are), so
those operations are modelled from the specification; gateway-level
definitions are translated from src/src/hooks/useGlobalEvents.ts and the
constant from src/unnamed/part_004.
-/

namespace OpenCodeUI

/-- Part snapshot as stored inside a message: `id` (unique within its owning
message), `sessionID`, `messageID`, a discriminated `kind` and a kind-specific
payload that is replaced wholesale on each update. -/
structure Part where
  id : String
  sessionID : String
  messageID : String
  kind : String
  payload : String
deriving Repr, DecidableEq

/-- Raw `part.updated` event payload as it crosses the gateway.  In the source
the TypeScript union type `ApiPart` may lack the `sessionID` and `messageID`
fields, which src/src/hooks/useGlobalEvents.ts tests with the `in` operator at
lines 52-55; field presence is modelled with `Option`. -/
structure ApiPart where
  sessionID : Option String
  messageID : Option String
  id : String
  kind : String
  payload : String
deriving Repr, DecidableEq

/-- `message.updated` event payload: sessionId, messageId, role, status
(parts are managed separately by `part.updated`). -/
structure ApiMessage where
  sessionID : String
  id : String
  role : String
  status : String
deriving Repr, DecidableEq

/-- `session.error` event payload: session id plus the error name and text. -/
structure ApiSessionError where
  sessionID : String
  name : String
  message : String
deriving Repr, DecidableEq

/-- Message: ordered container of parts belonging to one session, with a role
and a lifecycle status; parts are kept in first-seen order. -/
structure Message where
  id : String
  role : String
  status : String
  parts : List Part
deriving Repr, DecidableEq

/-- Modelled from the spec: one revert-stack entry, capturing the messages the
revert hid (the messages beyond the revert index). -/
structure RevertHistoryItem where
  hidden : List Message
deriving Repr, DecidableEq

/-- Per-session aggregate: ordered message list (insertion order), an
idle/busy/error status flag, and the revert stack (most recent revert last). -/
structure SessionState where
  messages : List Message
  status : String
  revertStack : List RevertHistoryItem
deriving Repr, DecidableEq

/-- From src/unnamed/part_004: maximum number of messages a single session
keeps in memory; exceeding it triggers trimming that keeps the newest. -/
def MAX_HISTORY_MESSAGES : Nat := 500

/-- Modelled from the spec (History Window Manager, messageStore.ts is not in
the sources): after a merge, if `messages.length` exceeds the ceiling, drop the
oldest messages down to the ceiling. -/
def trimHistory (ceiling : Nat) (msgs : List Message) : List Message :=
  if msgs.length > ceiling then msgs.drop (msgs.length - ceiling) else msgs

/-- Modelled from the spec (Merge Engine, messageStore.ts is not in the
sources): upsert a part by id — replace if a part with the same id is present,
append if new, preserving first-seen order. -/
def upsertPart (p : Part) (parts : List Part) : List Part :=
  if parts.any (fun q => q.id = p.id) then
    parts.map (fun q => if q.id = p.id then p else q)
  else
    parts ++ [p]

/-- Modelled from the spec (Merge Engine, messageStore.ts is not in the
sources): `applyMessageUpdated` — if no message with the snapshot id exists,
append a new message in arrival order (which clears the revert stack, since a
new message supersedes the hidden future); if one exists, replace its
role/status fields only.  The history window trim runs after the merge. -/
def applyMessageUpdated (ceiling : Nat) (msg : ApiMessage) (s : SessionState) :
    SessionState :=
  if s.messages.any (fun m => m.id = msg.id) then
    { s with
      messages := trimHistory ceiling
        (s.messages.map (fun m =>
          if m.id = msg.id then { m with role := msg.role, status := msg.status }
          else m)) }
  else
    { s with
      messages := trimHistory ceiling
        (s.messages ++ [{ id := msg.id, role := msg.role, status := msg.status,
                          parts := [] }]),
      revertStack := [] }

/-- Modelled from the spec (Merge Engine, messageStore.ts is not in the
sources): `applyPartUpdated` — locate the owning message by `messageID`; if it
does not exist, synthesize a placeholder message with status `streaming` so the
part is never orphaned (a new appended message clears the revert stack), then
upsert the part by id.  The history window trim runs after the merge. -/
def applyPartUpdated (ceiling : Nat) (p : Part) (s : SessionState) :
    SessionState :=
  if s.messages.any (fun m => m.id = p.messageID) then
    { s with
      messages := trimHistory ceiling
        (s.messages.map (fun m =>
          if m.id = p.messageID then { m with parts := upsertPart p m.parts }
          else m)) }
  else
    { s with
      messages := trimHistory ceiling
        (s.messages ++ [{ id := p.messageID, role := "assistant",
                          status := "streaming", parts := [p] }]),
      revertStack := [] }

/-- Modelled from the spec (Merge Engine, messageStore.ts is not in the
sources): `applyPartRemoved` — remove the part by id if present; removing a
non-existent part is a no-op.  The history window trim runs after the merge. -/
def applyPartRemoved (ceiling : Nat) (messageID partID : String)
    (s : SessionState) : SessionState :=
  { s with
    messages := trimHistory ceiling
      (s.messages.map (fun m =>
        if m.id = messageID then
          { m with parts := m.parts.filter (fun q => !(q.id = partID)) }
        else m)) }

/-- Modelled from the spec: `applySessionIdle` sets the session status to
idle. -/
def applySessionIdle (s : SessionState) : SessionState :=
  { s with status := "idle" }

/-- Modelled from the spec: `applySessionError` sets the session status to
error; it does not clear messages. -/
def applySessionError (s : SessionState) : SessionState :=
  { s with status := "error" }

/-- Modelled from the spec (Revert/Redo Controller, messageStore.ts is not in
the sources): `revert(toMessageIndex)` pushes a RevertHistoryItem capturing the
messages currently beyond `toMessageIndex` and truncates the visible list to
that index (the message at the index stays visible, matching the spec scenario
where reverting to index 1 on [m1,m2,m3,m4] leaves [m1,m2]).  An out-of-range
index — negative, or at least the message count — is rejected with `none`. -/
def revert (toIndex : Int) (s : SessionState) : Option SessionState :=
  if 0 ≤ toIndex ∧ toIndex < (s.messages.length : Int) then
    some { s with
      messages := s.messages.take (toIndex.toNat + 1),
      revertStack := s.revertStack ++ [⟨s.messages.drop (toIndex.toNat + 1)⟩] }
  else
    none

/-- Store-facing wrapper of `revert`: a rejected request leaves the state
unchanged and reports failure with `false`. -/
def revertOp (toIndex : Int) (s : SessionState) : Bool × SessionState :=
  match revert toIndex s with
  | some t => (true, t)
  | none => (false, s)

/-- Modelled from the spec: `canRedo` is true iff the revert stack is
non-empty. -/
def canRedo (s : SessionState) : Bool :=
  !s.revertStack.isEmpty

/-- Modelled from the spec: `revertSteps`, surfaced to the UI, equals the
revert-stack depth. -/
def revertSteps (s : SessionState) : Nat :=
  s.revertStack.length

/-- Modelled from the spec: `redo()` pops the most recent RevertHistoryItem and
restores the messages it had hidden, appended back in their original order;
invalid (none) when the stack is empty. -/
def redo (s : SessionState) : Option SessionState :=
  match s.revertStack.getLast? with
  | some item =>
      some { s with
        messages := s.messages ++ item.hidden,
        revertStack := s.revertStack.dropLast }
  | none => none

/-- Store-facing wrapper of `redo`: an invalid redo leaves the state
unchanged. -/
def redoOrKeep (s : SessionState) : SessionState :=
  (redo s).getD s

/-- Fuel-indexed helper for `redoAll`: performs up to `fuel` redo steps. -/
def redoAllAux : Nat → SessionState → SessionState
  | 0, s => s
  | fuel + 1, s =>
      match redo s with
      | some t => redoAllAux fuel t
      | none => s

/-- Modelled from the spec: `redoAll()` pops every revert-stack entry,
restoring all hidden messages in original order, and ends in the clean
state. -/
def redoAll (s : SessionState) : SessionState :=
  redoAllAux s.revertStack.length s

/-- Look up a part by owning message id and part id: the part state an
observer of the session sees. -/
def SessionState.getPart (s : SessionState) (mid pid : String) : Option Part :=
  match s.messages.find? (fun m => m.id = mid) with
  | some m => m.parts.find? (fun q => q.id = pid)
  | none => none

/-- A freshly created session: empty message list, idle status, empty revert
stack. -/
def emptySession : SessionState :=
  { messages := [], status := "idle", revertStack := [] }

/-- Modelled from the spec (Session Registry): the process-wide store — a map
from session id to SessionState plus the id of the session the UI is currently
viewing. -/
structure MessageStore where
  sessions : List (String × SessionState)
  currentSessionId : Option String
deriving Repr, DecidableEq

/-- Read a session, yielding a fresh empty session when absent (the registry
creates lazily on first reference). -/
def MessageStore.getSession (st : MessageStore) (sid : String) : SessionState :=
  match st.sessions.find? (fun e => e.1 = sid) with
  | some e => e.2
  | none => emptySession

/-- Write a session back into the registry map. -/
def MessageStore.setSession (st : MessageStore) (sid : String)
    (s : SessionState) : MessageStore :=
  if st.sessions.any (fun e => e.1 = sid) then
    { st with
      sessions := st.sessions.map (fun e => if e.1 = sid then (sid, s) else e) }
  else
    { st with sessions := st.sessions ++ [(sid, s)] }

/-- `getCurrentSessionId`, as called by the gateway handlers at dispatch
time. -/
def MessageStore.getCurrentSessionId (st : MessageStore) : Option String :=
  st.currentSessionId

/-- Modelled from the spec: store-level `handleMessageUpdated`, routing the
snapshot to its session and applying the merge with the configured ceiling. -/
def MessageStore.handleMessageUpdated (st : MessageStore) (msg : ApiMessage) :
    MessageStore :=
  st.setSession msg.sessionID
    (applyMessageUpdated MAX_HISTORY_MESSAGES msg (st.getSession msg.sessionID))

/-- Modelled from the spec: store-level `handlePartUpdated` for a part event
whose `sessionID` and `messageID` are present, routing to its session. -/
def MessageStore.handlePartUpdated (st : MessageStore) (sid mid : String)
    (p : ApiPart) : MessageStore :=
  st.setSession sid
    (applyPartUpdated MAX_HISTORY_MESSAGES
      { id := p.id, sessionID := sid, messageID := mid, kind := p.kind,
        payload := p.payload }
      (st.getSession sid))

/-- Modelled from the spec: store-level `handleSessionError` sets the session
status to error. -/
def MessageStore.handleSessionError (st : MessageStore) (sid : String) :
    MessageStore :=
  st.setSession sid (applySessionError (st.getSession sid))

/-- From src/src/hooks/useGlobalEvents.ts lines 66-72: the `session.error`
handler treats `MessageAbortedError` and `AbortError` as aborts. -/
def isAbortError (e : ApiSessionError) : Bool :=
  e.name = "MessageAbortedError" || e.name = "AbortError"

/-- From src/src/hooks/useGlobalEvents.ts lines 66-72: on `session.error`,
log to the console only when the error is not an abort, and in every case
forward to `messageStore.handleSessionError`.  The Bool records whether the
console log happened. -/
def onSessionError (st : MessageStore) (e : ApiSessionError) :
    MessageStore × Bool :=
  (st.handleSessionError e.sessionID, !isAbortError e)

/-- Events reaching the callback-only handlers of
src/src/hooks/useGlobalEvents.ts (permission and question events), plus a
session switch performed by the UI between events, which changes which session
the registry reports as current. -/
inductive CallbackEvent where
  | permissionAsked (sessionID requestID : String)
  | permissionReplied (sessionID requestID : String)
  | questionAsked (sessionID requestID : String)
  | questionReplied (sessionID requestID : String)
  | questionRejected (sessionID requestID : String)
  | sessionSwitch (sessionID : String)
deriving Repr, DecidableEq

/-- Trace state for callback dispatch: the store (whose current-session id the
handlers read at dispatch time) and the log of user-callback invocations, each
recorded as (callback name, sessionID, requestID). -/
structure CallbackTraceState where
  store : MessageStore
  invocations : List (String × String × String)
deriving Repr, DecidableEq

/-- From src/src/hooks/useGlobalEvents.ts lines 83-121: each permission and
question handler reads `messageStore.getCurrentSessionId()` fresh when the
event arrives and invokes the registered user callback only when the event
sessionID equals it; a `sessionSwitch` only updates the registry. -/
def dispatchCallbackEvent (ts : CallbackTraceState) (e : CallbackEvent) :
    CallbackTraceState :=
  match e with
  | .sessionSwitch sid =>
      { ts with store := { ts.store with currentSessionId := some sid } }
  | .permissionAsked sid rid =>
      if ts.store.getCurrentSessionId = some sid then
        { ts with invocations := ts.invocations ++ [("onPermissionAsked", sid, rid)] }
      else ts
  | .permissionReplied sid rid =>
      if ts.store.getCurrentSessionId = some sid then
        { ts with invocations := ts.invocations ++ [("onPermissionReplied", sid, rid)] }
      else ts
  | .questionAsked sid rid =>
      if ts.store.getCurrentSessionId = some sid then
        { ts with invocations := ts.invocations ++ [("onQuestionAsked", sid, rid)] }
      else ts
  | .questionReplied sid rid =>
      if ts.store.getCurrentSessionId = some sid then
        { ts with invocations := ts.invocations ++ [("onQuestionReplied", sid, rid)] }
      else ts
  | .questionRejected sid rid =>
      if ts.store.getCurrentSessionId = some sid then
        { ts with invocations := ts.invocations ++ [("onQuestionRejected", sid, rid)] }
      else ts

/-- The log entry a callback event would produce when it passes the
current-session filter. -/
def callbackEntry (e : CallbackEvent) : List (String × String × String) :=
  match e with
  | .permissionAsked sid rid => [("onPermissionAsked", sid, rid)]
  | .permissionReplied sid rid => [("onPermissionReplied", sid, rid)]
  | .questionAsked sid rid => [("onQuestionAsked", sid, rid)]
  | .questionReplied sid rid => [("onQuestionReplied", sid, rid)]
  | .questionRejected sid rid => [("onQuestionRejected", sid, rid)]
  | .sessionSwitch _ => []

/-- The sessionID carried by a callback event (none for a session switch). -/
def callbackSessionID (e : CallbackEvent) : Option String :=
  match e with
  | .permissionAsked sid _ => some sid
  | .permissionReplied sid _ => some sid
  | .questionAsked sid _ => some sid
  | .questionReplied sid _ => some sid
  | .questionRejected sid _ => some sid
  | .sessionSwitch _ => none

/-- Per-frame dispatcher state for `part.updated` events: the store, the
`scrollPending` throttle flag of `scheduleScroll`, and how many
`requestAnimationFrame` scroll notifications have been requested during the
current frame. -/
structure FrameState where
  store : MessageStore
  scrollPending : Bool
  scrollRequests : Nat
deriving Repr, DecidableEq

/-- From src/src/hooks/useGlobalEvents.ts lines 31-56: `onPartUpdated` guards
on the presence of `sessionID` and `messageID`, forwards to
`messageStore.handlePartUpdated`, and calls `scheduleScroll`, which requests at
most one animation-frame notification while `scrollPending` is set. -/
def onPartUpdatedFrame (fs : FrameState) (p : ApiPart) : FrameState :=
  match p.sessionID, p.messageID with
  | some sid, some mid =>
      let store := fs.store.handlePartUpdated sid mid p
      if fs.scrollPending then
        { fs with store := store }
      else
        { store := store, scrollPending := true,
          scrollRequests := fs.scrollRequests + 1 }
  | _, _ => fs

/-- The store mutation of a `part.updated` event alone, without the scroll
bookkeeping: used to state that throttling never drops a state update. -/
def partEventStoreStep (st : MessageStore) (p : ApiPart) : MessageStore :=
  match p.sessionID, p.messageID with
  | some sid, some mid => st.handlePartUpdated sid mid p
  | _, _ => st

/-- A trimmed list never exceeds the ceiling. -/
lemma length_trimHistory_le (c : Nat) (l : List Message) :
    (trimHistory c l).length ≤ c := by
  unfold trimHistory
  split
  · rw [List.length_drop]
    omega
  · omega

/-- Trimming a list already within the ceiling is the identity. -/
lemma trimHistory_eq_self (c : Nat) (l : List Message) (h : l.length ≤ c) :
    trimHistory c l = l := by
  unfold trimHistory
  rw [if_neg]
  omega

/-- A list with no satisfying element has no find? result. -/
lemma find?_eq_none_of_any_eq_false {α : Type} (p : α → Bool) :
    ∀ l : List α, l.any p = false → l.find? p = none
  | [], _ => rfl
  | a :: l, h => by
      rw [List.any_cons, Bool.or_eq_false_iff] at h
      rw [List.find?_cons_of_neg l (by simp [h.1]),
        find?_eq_none_of_any_eq_false p l h.2]

/-- find? over an append skips a prefix with no match. -/
lemma find?_append_of_none {α : Type} (p : α → Bool) :
    ∀ l₁ l₂ : List α, l₁.find? p = none → (l₁ ++ l₂).find? p = l₂.find? p
  | [], _, _ => by simp
  | a :: l₁, l₂, h => by
      by_cases ha : p a = true
      · rw [List.find?_cons_of_pos l₁ ha] at h
        exact absurd h (by simp)
      · rw [List.find?_cons_of_neg l₁ ha] at h
        rw [List.cons_append, List.find?_cons_of_neg _ ha,
          find?_append_of_none p l₁ l₂ h]

/-- Dropping elements cannot create a match. -/
lemma any_drop_eq_false {α : Type} (p : α → Bool) (k : Nat) (l : List α)
    (h : l.any p = false) : (l.drop k).any p = false := by
  rw [List.any_eq_false] at h ⊢
  intro x hx
  exact h x (List.mem_of_mem_drop hx)

/-- find? commutes with mapping a function that preserves the tested id. -/
lemma find?_map_of_id_preserved (f : Message → Message)
    (hf : ∀ m, (f m).id = m.id) (mid : String) :
    ∀ l : List Message,
      (l.map f).find? (fun m => m.id = mid) =
        (l.find? (fun m => m.id = mid)).map f
  | [] => rfl
  | a :: l => by
      by_cases ha : a.id = mid
      · rw [List.map_cons, List.find?_cons_of_pos _ (by simp [hf a, ha]),
          List.find?_cons_of_pos _ (by simp [ha])]
        rfl
      · rw [List.map_cons, List.find?_cons_of_neg _ (by simp [hf a, ha]),
          List.find?_cons_of_neg _ (by simp [ha]),
          find?_map_of_id_preserved f hf mid l]

/-- A positive `any` yields a find? result. -/
lemma find?_isSome_of_any {α : Type} (p : α → Bool) :
    ∀ l : List α, l.any p = true → ∃ a, l.find? p = some a
  | a :: l, h => by
      by_cases ha : p a = true
      · exact ⟨a, List.find?_cons_of_pos l ha⟩
      · rw [List.any_cons] at h
        rcases find?_isSome_of_any p l (by simpa [ha] using h) with ⟨b, hb⟩
        exact ⟨b, by rw [List.find?_cons_of_neg l ha, hb]⟩

/-- Mapping a function that fixes every element of a list is the identity. -/
lemma map_eq_self_of_fixed {α : Type} (f : α → α) :
    ∀ l : List α, (∀ a ∈ l, f a = a) → l.map f = l
  | [], _ => rfl
  | a :: l, h => by
      rw [List.map_cons, h a (by simp),
        map_eq_self_of_fixed f l (fun b hb => h b (by simp [hb]))]

/-- After an upsert, looking the part up by the upserted id yields exactly the
new snapshot. -/
lemma find?_upsertPart (p : Part) (parts : List Part) :
    (upsertPart p parts).find? (fun q => q.id = p.id) = some p := by
  unfold upsertPart
  split
  · rename_i hany
    induction parts with
    | nil => simp at hany
    | cons q rest ih =>
        by_cases hq : q.id = p.id
        · rw [List.map_cons, if_pos hq, List.find?_cons_of_pos _ (by simp)]
        · rw [List.any_cons] at hany
          rw [List.map_cons, if_neg hq, List.find?_cons_of_neg _ (by simp [hq]),
            ih (by simpa [hq] using hany)]
  · rename_i hany
    rw [find?_append_of_none _ _ _
      (find?_eq_none_of_any_eq_false _ _ (by simpa using hany)),
      List.find?_cons_of_pos _ (by simp)]

/-- Upserting the same part snapshot twice equals upserting it once. -/
lemma upsertPart_idem (p : Part) (parts : List Part) :
    upsertPart p (upsertPart p parts) = upsertPart p parts := by
  have hf : ∀ q : Part,
      (if (if q.id = p.id then p else q).id = p.id then p
       else if q.id = p.id then p else q) = if q.id = p.id then p else q := by
    intro q
    by_cases hq : q.id = p.id <;> simp [hq]
  unfold upsertPart
  split
  · rename_i hany
    have hany2 : (parts.map (fun q => if q.id = p.id then p else q)).any
        (fun q => q.id = p.id) = true := by
      rw [List.any_eq_true] at hany ⊢
      rcases hany with ⟨q, hq, hqid⟩
      exact ⟨if q.id = p.id then p else q, List.mem_map_of_mem _ hq,
        by simp at hqid; simp [hqid]⟩
    rw [if_pos hany2, List.map_map]
    exact congrArg (fun f => List.map f parts) (funext fun q => hf q)
  · rename_i hany
    have hids : ∀ q ∈ parts, ¬(q.id = p.id) := by
      have h0 : parts.any (fun q => q.id = p.id) = false := by simpa using hany
      intro q hq
      simpa using List.any_eq_false.mp h0 q hq
    have hany2 : (parts ++ [p]).any (fun q => q.id = p.id) = true := by
      rw [List.any_append]
      simp
    rw [if_pos hany2, List.map_append,
      map_eq_self_of_fixed _ parts (fun q hq => by simp [hids q hq])]
    simp

/-- With a positive ceiling, trimming after appending one message keeps the
appended message and drops only from the front. -/
lemma trimHistory_append_single (c : Nat) (hc : 1 ≤ c) (l : List Message)
    (ph : Message) :
    trimHistory c (l ++ [ph]) = l.drop (l.length + 1 - c) ++ [ph] := by
  unfold trimHistory
  by_cases h : c < l.length + 1
  · rw [if_pos (by simp; omega), List.drop_append_eq_append_drop]
    have h1 : (l ++ [ph]).length - c = l.length + 1 - c := by simp
    have h2 : l.length + 1 - c - l.length = 0 := by omega
    rw [h1, h2, List.drop_zero]
  · rw [if_neg (by simp; omega)]
    have h0 : l.length + 1 - c = 0 := by omega
    rw [h0, List.drop_zero]

/-- Every merge operation leaves at most `ceiling` messages. -/
lemma length_applyPartUpdated_le (c : Nat) (p : Part) (s : SessionState) :
    (applyPartUpdated c p s).messages.length ≤ c := by
  unfold applyPartUpdated
  split <;> exact length_trimHistory_le c _

/-- Every merge operation leaves at most `ceiling` messages. -/
lemma length_applyMessageUpdated_le (c : Nat) (msg : ApiMessage)
    (s : SessionState) :
    (applyMessageUpdated c msg s).messages.length ≤ c := by
  unfold applyMessageUpdated
  split <;> exact length_trimHistory_le c _

/-- Every merge operation leaves at most `ceiling` messages. -/
lemma length_applyPartRemoved_le (c : Nat) (mid pid : String)
    (s : SessionState) :
    (applyPartRemoved c mid pid s).messages.length ≤ c := by
  unfold applyPartRemoved
  exact length_trimHistory_le c _

/-- Folding part updates preserves the ceiling invariant. -/
lemma length_foldl_applyPartUpdated_le (c : Nat) :
    ∀ (ps : List Part) (s : SessionState), s.messages.length ≤ c →
      (ps.foldl (fun t q => applyPartUpdated c q t) s).messages.length ≤ c
  | [], _, h => h
  | q :: rest, s, _ => by
      rw [List.foldl_cons]
      exact length_foldl_applyPartUpdated_le c rest _
        (length_applyPartUpdated_le c q s)

/-- After a part update the stored part with the event ids is exactly the
event snapshot, provided the ceiling is positive and the session respects the
ceiling. -/
lemma getPart_applyPartUpdated (c : Nat) (p : Part) (s : SessionState)
    (hc : 1 ≤ c) (hlen : s.messages.length ≤ c) :
    (applyPartUpdated c p s).getPart p.messageID p.id = some p := by
  unfold applyPartUpdated SessionState.getPart
  by_cases hany : s.messages.any (fun m => m.id = p.messageID) = true
  · rw [if_pos hany]
    dsimp only
    rw [trimHistory_eq_self _ _ (by rw [List.length_map]; exact hlen)]
    rcases find?_isSome_of_any _ _ hany with ⟨m0, hm0⟩
    rw [find?_map_of_id_preserved _
      (fun m => by by_cases h : m.id = p.messageID <;> simp [h]) _ _, hm0]
    have hid0 : m0.id = p.messageID := by simpa using List.find?_some hm0
    show ((if m0.id = p.messageID
        then { m0 with parts := upsertPart p m0.parts } else m0 : Message).parts.find?
        (fun q => q.id = p.id)) = some p
    rw [if_pos hid0]
    exact find?_upsertPart p m0.parts
  · rw [if_neg hany]
    have hanyf : s.messages.any (fun m => m.id = p.messageID) = false := by
      simpa using hany
    dsimp only
    rw [trimHistory_append_single c hc]
    rw [find?_append_of_none _ _ _
      (find?_eq_none_of_any_eq_false _ _
        (any_drop_eq_false _ _ _ hanyf))]
    rw [List.find?_cons_of_pos _ (by simp)]
    dsimp only
    rw [List.find?_cons_of_pos _ (by simp)]

/-- Replaying the same part snapshot twice leaves the session state identical
to applying it once, provided the ceiling is positive and the session respects
the ceiling. -/
lemma applyPartUpdated_idem (c : Nat) (p : Part) (s : SessionState)
    (hc : 1 ≤ c) (hlen : s.messages.length ≤ c) :
    applyPartUpdated c p (applyPartUpdated c p s) = applyPartUpdated c p s := by
  have hfid : ∀ m : Message,
      ((if m.id = p.messageID then { m with parts := upsertPart p m.parts }
        else m) : Message).id = m.id := by
    intro m
    by_cases h : m.id = p.messageID <;> simp [h]
  by_cases hany : s.messages.any (fun m => m.id = p.messageID) = true
  · have hs1 : applyPartUpdated c p s =
        { s with messages := s.messages.map (fun m =>
            if m.id = p.messageID then { m with parts := upsertPart p m.parts }
            else m) } := by
      unfold applyPartUpdated
      rw [if_pos hany,
        trimHistory_eq_self _ _ (by rw [List.length_map]; exact hlen)]
    rw [hs1]
    have hany2 : (s.messages.map (fun m =>
        if m.id = p.messageID then { m with parts := upsertPart p m.parts }
        else m)).any (fun m => m.id = p.messageID) = true := by
      rw [List.any_map]
      rcases List.any_eq_true.mp hany with ⟨m, hm, hmid⟩
      refine List.any_eq_true.mpr ⟨m, hm, ?_⟩
      simp only [Function.comp]
      rw [hfid m]
      exact hmid
    have hff : ∀ m ∈ s.messages.map (fun m =>
        if m.id = p.messageID then { m with parts := upsertPart p m.parts }
        else m),
        (if m.id = p.messageID then { m with parts := upsertPart p m.parts }
         else m) = m := by
      intro m hm
      rcases List.mem_map.mp hm with ⟨m0, _, hm0⟩
      by_cases h : m0.id = p.messageID
      · rw [if_pos h] at hm0
        rw [← hm0]
        rw [if_pos (by simpa using h)]
        simp [upsertPart_idem]
      · rw [if_neg h] at hm0
        rw [← hm0, if_neg h]
    unfold applyPartUpdated
    rw [if_pos hany2,
      map_eq_self_of_fixed _ _ hff,
      trimHistory_eq_self _ _ (by rw [List.length_map]; exact hlen)]
  · have hanyf : s.messages.any (fun m => m.id = p.messageID) = false := by
      simpa using hany
    have hs1 : applyPartUpdated c p s =
        { s with
          messages := s.messages.drop (s.messages.length + 1 - c) ++
            [{ id := p.messageID, role := "assistant", status := "streaming",
               parts := [p] }],
          revertStack := [] } := by
      unfold applyPartUpdated
      rw [if_neg hany, trimHistory_append_single c hc]
    rw [hs1]
    have hany2 : ((s.messages.drop (s.messages.length + 1 - c) ++
        [({ id := p.messageID, role := "assistant", status := "streaming",
            parts := [p] } : Message)]).any
        (fun m => m.id = p.messageID)) = true := by
      rw [List.any_append]
      simp
    have hmapfix : ∀ m ∈ s.messages.drop (s.messages.length + 1 - c) ++
        [({ id := p.messageID, role := "assistant", status := "streaming",
            parts := [p] } : Message)],
        (if m.id = p.messageID then { m with parts := upsertPart p m.parts }
         else m) = m := by
      intro m hm
      rcases List.mem_append.mp hm with hm | hm
      · have hne : ¬(m.id = p.messageID) := by
          simpa using List.any_eq_false.mp
            (any_drop_eq_false _ (s.messages.length + 1 - c) _ hanyf) m hm
        simp [hne]
      · have hmeq : m = (⟨p.messageID, "assistant", "streaming", [p]⟩ : Message) := by
          simpa using hm
        subst hmeq
        rw [if_pos (by simp)]
        have hup : upsertPart p [p] = [p] := by simp [upsertPart]
        simp [hup]
    unfold applyPartUpdated
    rw [if_pos hany2,
      map_eq_self_of_fixed _ _ hmapfix,
      trimHistory_eq_self _ _ (by
        rw [List.length_append, List.length_drop]
        simp only [List.length_cons, List.length_nil]
        omega)]

/-- Redoing all of a single-entry revert stack appends the hidden messages
back and leaves the stack empty. -/
lemma redoAll_single (msgs : List Message) (st : String)
    (item : RevertHistoryItem) :
    redoAll { messages := msgs, status := st, revertStack := [item] } =
      { messages := msgs ++ item.hidden, status := st, revertStack := [] } := by
  simp [redoAll, redoAllAux, redo, List.getLast?]

/-- Reading back the session just written into the registry yields exactly
the written state. -/
lemma find?_setSession_map (sid : String) (s : SessionState) :
    ∀ l : List (String × SessionState), l.any (fun e => e.1 = sid) = true →
      (l.map (fun e => if e.1 = sid then (sid, s) else e)).find?
        (fun e => e.1 = sid) = some (sid, s)
  | [], h => by simp at h
  | e :: rest, h => by
      by_cases he : e.1 = sid
      · rw [List.map_cons, if_pos he, List.find?_cons_of_pos _ (by simp)]
      · rw [List.any_cons] at h
        rw [List.map_cons, if_neg he, List.find?_cons_of_neg _ (by simp [he]),
          find?_setSession_map sid s rest (by simpa [he] using h)]

/-- Reading back the session just written into the registry yields exactly
the written state. -/
lemma getSession_setSession (st : MessageStore) (sid : String)
    (s : SessionState) : (st.setSession sid s).getSession sid = s := by
  cases hany : st.sessions.any (fun e => e.1 = sid) with
  | true =>
      have hset : st.setSession sid s = { st with
          sessions := st.sessions.map (fun e => if e.1 = sid then (sid, s) else e) } := by
        unfold MessageStore.setSession
        rw [if_pos hany]
      rw [hset]
      unfold MessageStore.getSession
      dsimp only
      rw [find?_setSession_map sid s st.sessions hany]
  | false =>
      have hset : st.setSession sid s = { st with
          sessions := st.sessions ++ [(sid, s)] } := by
        unfold MessageStore.setSession
        rw [if_neg (by rw [hany]; exact Bool.false_ne_true)]
      rw [hset]
      unfold MessageStore.getSession
      dsimp only
      rw [find?_append_of_none _ _ _
        (find?_eq_none_of_any_eq_false _ _ hany),
        List.find?_cons_of_pos _ (by simp)]

/-- Within a frame the number of scroll notifications requested grows by at
most one, and only when the pending flag starts cleared. -/
lemma scrollRequests_foldl_le :
    ∀ (events : List ApiPart) (fs : FrameState),
      (events.foldl onPartUpdatedFrame fs).scrollRequests ≤
        fs.scrollRequests + (if fs.scrollPending then 0 else 1)
  | [], fs => by
      show fs.scrollRequests ≤ fs.scrollRequests + _
      split <;> omega
  | p :: rest, fs => by
      obtain ⟨psid, pmid, pid, pkind, ppay⟩ := p
      rw [List.foldl_cons]
      cases psid with
      | none =>
          exact le_trans (scrollRequests_foldl_le rest fs) (le_refl _)
      | some sid =>
          cases pmid with
          | none =>
              exact le_trans (scrollRequests_foldl_le rest fs) (le_refl _)
          | some mid =>
              by_cases hp : fs.scrollPending
              · have step : onPartUpdatedFrame fs (ApiPart.mk (some sid) (some mid) pid pkind ppay) = { fs with store := fs.store.handlePartUpdated sid mid (ApiPart.mk (some sid) (some mid) pid pkind ppay) } := by
                  unfold onPartUpdatedFrame
                  dsimp only
                  rw [if_pos hp]
                rw [step]
                refine le_trans (scrollRequests_foldl_le rest _) ?_
                simp [hp]
              · have step : onPartUpdatedFrame fs (ApiPart.mk (some sid) (some mid) pid pkind ppay) = FrameState.mk (fs.store.handlePartUpdated sid mid (ApiPart.mk (some sid) (some mid) pid pkind ppay)) true (fs.scrollRequests + 1) := by
                  unfold onPartUpdatedFrame
                  dsimp only
                  rw [if_neg hp]
                rw [step]
                refine le_trans (scrollRequests_foldl_le rest _) ?_
                simp [hp]

/-- The store component of the frame fold equals folding the plain store
mutations: throttling drops no state update. -/
lemma store_foldl_onPartUpdatedFrame :
    ∀ (events : List ApiPart) (fs : FrameState),
      (events.foldl onPartUpdatedFrame fs).store =
        events.foldl partEventStoreStep fs.store
  | [], _ => rfl
  | p :: rest, fs => by
      obtain ⟨psid, pmid, pid, pkind, ppay⟩ := p
      rw [List.foldl_cons, List.foldl_cons]
      cases psid with
      | none => exact store_foldl_onPartUpdatedFrame rest fs
      | some sid =>
          cases pmid with
          | none => exact store_foldl_onPartUpdatedFrame rest fs
          | some mid =>
              by_cases hp : fs.scrollPending
              · have step : onPartUpdatedFrame fs (ApiPart.mk (some sid) (some mid) pid pkind ppay) = { fs with store := fs.store.handlePartUpdated sid mid (ApiPart.mk (some sid) (some mid) pid pkind ppay) } := by
                  unfold onPartUpdatedFrame
                  dsimp only
                  rw [if_pos hp]
                rw [step]
                exact store_foldl_onPartUpdatedFrame rest _
              · have step : onPartUpdatedFrame fs (ApiPart.mk (some sid) (some mid) pid pkind ppay) = FrameState.mk (fs.store.handlePartUpdated sid mid (ApiPart.mk (some sid) (some mid) pid pkind ppay)) true (fs.scrollRequests + 1) := by
                  unfold onPartUpdatedFrame
                  dsimp only
                  rw [if_neg hp]
                rw [step]
                exact store_foldl_onPartUpdatedFrame rest _

/-- Claim C1: after every merge operation (applyMessageUpdated,
applyPartUpdated, applyPartRemoved) the session message list never exceeds the
configured ceiling, the externally supplied constant MAX_HISTORY_MESSAGES
being 500, with the oldest messages dropped first; concretely, with ceiling 3,
appending messages m1..m5 in order leaves exactly [m3, m4, m5]. -/
theorem history_window_ceiling_invariant :
    (∀ (c : Nat) (msg : ApiMessage) (s : SessionState),
        (applyMessageUpdated c msg s).messages.length ≤ c)
    ∧ (∀ (c : Nat) (p : Part) (s : SessionState),
        (applyPartUpdated c p s).messages.length ≤ c)
    ∧ (∀ (c : Nat) (mid pid : String) (s : SessionState),
        (applyPartRemoved c mid pid s).messages.length ≤ c)
    ∧ MAX_HISTORY_MESSAGES = 500
    ∧ (["m1", "m2", "m3", "m4", "m5"].foldl
        (fun s i => applyMessageUpdated 3 ⟨"S", i, "user", "complete"⟩ s)
        emptySession).messages =
      [⟨"m3", "user", "complete", []⟩, ⟨"m4", "user", "complete", []⟩,
        ⟨"m5", "user", "complete", []⟩] :=
  ⟨length_applyMessageUpdated_le, length_applyPartUpdated_le,
    length_applyPartRemoved_le, rfl, by decide⟩

/-- Claim C2: for every sequence of part.updated events sharing the same
(messageId, partId), applying the whole sequence leaves the part state equal
to the payload of the last event, and replaying any event of the sequence a
second time (duplicate delivery) leaves the session state identical to
applying it once. -/
theorem part_update_last_write_wins_idempotent
    (c : Nat) (s : SessionState) (ps : List Part) (plast : Part)
    (hc : 1 ≤ c) (hlen : s.messages.length ≤ c)
    (hsame : ∀ q ∈ ps, q.messageID = plast.messageID ∧ q.id = plast.id) :
    (((ps ++ [plast]).foldl (fun t q => applyPartUpdated c q t) s).getPart
        plast.messageID plast.id = some plast)
    ∧ (∀ (l₁ : List Part) (e : Part) (l₂ : List Part),
        ps ++ [plast] = l₁ ++ e :: l₂ →
        (l₁ ++ e :: e :: l₂).foldl (fun t q => applyPartUpdated c q t) s =
          (l₁ ++ e :: l₂).foldl (fun t q => applyPartUpdated c q t) s) := by
  constructor
  · rw [List.foldl_append]
    exact getPart_applyPartUpdated c plast _ hc
      (length_foldl_applyPartUpdated_le c ps s hlen)
  · intro l₁ e l₂ hsplit
    rw [List.foldl_append, List.foldl_append, List.foldl_cons, List.foldl_cons,
      List.foldl_cons]
    have hidem := applyPartUpdated_idem c e
      (l₁.foldl (fun t q => applyPartUpdated c q t) s) hc
      (length_foldl_applyPartUpdated_le c l₁ s hlen)
    rw [hidem]

/-- Witness for claim C2 at a concrete input: two snapshots of part p1 of
message m1, the second payload winning and the sequence being idempotent. -/
theorem part_update_last_write_wins_idempotent_witness :
    (1 ≤ 2 ∧ (emptySession : SessionState).messages.length ≤ 2
      ∧ ∀ q ∈ [(⟨"p1", "S", "m1", "text", "hello"⟩ : Part)],
          q.messageID = (⟨"p1", "S", "m1", "text", "world"⟩ : Part).messageID
          ∧ q.id = (⟨"p1", "S", "m1", "text", "world"⟩ : Part).id)
    ∧ ((([(⟨"p1", "S", "m1", "text", "hello"⟩ : Part)] ++
          [(⟨"p1", "S", "m1", "text", "world"⟩ : Part)]).foldl
          (fun t q => applyPartUpdated 2 q t) emptySession).getPart "m1" "p1" =
        some ⟨"p1", "S", "m1", "text", "world"⟩)
    ∧ (∀ (l₁ : List Part) (e : Part) (l₂ : List Part),
        [(⟨"p1", "S", "m1", "text", "hello"⟩ : Part)] ++
          [(⟨"p1", "S", "m1", "text", "world"⟩ : Part)] = l₁ ++ e :: l₂ →
        (l₁ ++ e :: e :: l₂).foldl (fun t q => applyPartUpdated 2 q t)
            emptySession =
          (l₁ ++ e :: l₂).foldl (fun t q => applyPartUpdated 2 q t)
            emptySession) :=
  ⟨⟨by decide, by decide, by decide⟩,
    (part_update_last_write_wins_idempotent 2 emptySession
      [⟨"p1", "S", "m1", "text", "hello"⟩] ⟨"p1", "S", "m1", "text", "world"⟩
      (by decide) (by decide) (by decide)).1,
    (part_update_last_write_wins_idempotent 2 emptySession
      [⟨"p1", "S", "m1", "text", "hello"⟩] ⟨"p1", "S", "m1", "text", "world"⟩
      (by decide) (by decide) (by decide)).2⟩

/-- Counterexample to claim C3 as stated: for a session that is already in the
reverted state (non-empty revert stack), revert(0) followed by redoAll() also
restores the previously hidden message mB, so the resulting message list
differs from the list [mA] that existed immediately before the revert. -/
theorem revert_redoAll_counterexample :
    (revert 0 (⟨[⟨"mA", "user", "complete", []⟩], "idle",
        [⟨[⟨"mB", "user", "complete", []⟩]⟩]⟩ : SessionState)).isSome = true
    ∧ ¬((redoAll ((revert 0 (⟨[⟨"mA", "user", "complete", []⟩], "idle",
            [⟨[⟨"mB", "user", "complete", []⟩]⟩]⟩ : SessionState)).getD
          emptySession)).messages =
        [⟨"mA", "user", "complete", []⟩]) := by decide

/-- Claim C3 (amended): for every session state in the clean state (empty
revert stack) and every valid index, revert(idx) followed by redoAll(), with
no message appended in between, restores the exact message list that existed
immediately before the revert and ends in the clean state. -/
theorem revert_then_redoAll_restores_clean (s : SessionState) (idx : Int)
    (t : SessionState) (hclean : s.revertStack = [])
    (hrev : revert idx s = some t) :
    (redoAll t).messages = s.messages ∧ (redoAll t).revertStack = [] := by
  unfold revert at hrev
  by_cases hcond : 0 ≤ idx ∧ idx < (s.messages.length : Int)
  · rw [if_pos hcond] at hrev
    have ht : t = { s with
        messages := s.messages.take (idx.toNat + 1),
        revertStack := s.revertStack ++ [⟨s.messages.drop (idx.toNat + 1)⟩] } :=
      (Option.some.inj hrev).symm
    subst ht
    simp only [hclean, List.nil_append]
    rw [redoAll_single]
    exact ⟨List.take_append_drop _ _, rfl⟩
  · rw [if_neg hcond] at hrev
    exact absurd hrev (by simp)

/-- Witness for claim C3 (amended) at a concrete input: a clean two-message
session, reverted to index 0 and fully redone. -/
theorem revert_then_redoAll_restores_clean_witness :
    ((⟨[⟨"m1", "user", "complete", []⟩, ⟨"m2", "user", "complete", []⟩],
        "idle", []⟩ : SessionState).revertStack = []
      ∧ revert 0 (⟨[⟨"m1", "user", "complete", []⟩,
          ⟨"m2", "user", "complete", []⟩], "idle", []⟩ : SessionState) =
        some (⟨[⟨"m1", "user", "complete", []⟩], "idle",
          [⟨[⟨"m2", "user", "complete", []⟩]⟩]⟩ : SessionState))
    ∧ ((redoAll (⟨[⟨"m1", "user", "complete", []⟩], "idle",
          [⟨[⟨"m2", "user", "complete", []⟩]⟩]⟩ : SessionState)).messages =
        (⟨[⟨"m1", "user", "complete", []⟩, ⟨"m2", "user", "complete", []⟩],
          "idle", []⟩ : SessionState).messages
      ∧ (redoAll (⟨[⟨"m1", "user", "complete", []⟩], "idle",
          [⟨[⟨"m2", "user", "complete", []⟩]⟩]⟩ : SessionState)).revertStack =
        []) :=
  ⟨⟨rfl, by decide⟩,
    revert_then_redoAll_restores_clean _ 0 _ rfl (by decide)⟩

/-- Claim C4: appending a new message while the session is reverted clears the
entire revert stack, so after revert, append, and a subsequent redo, canRedo
is false — the hidden messages can no longer be restored. -/
theorem append_clears_revert_stack
    (c : Nat) (s : SessionState) (msg : ApiMessage)
    (hrev : s.revertStack ≠ [])
    (hnew : s.messages.any (fun m => m.id = msg.id) = false) :
    (applyMessageUpdated c msg s).revertStack = []
    ∧ canRedo (redoOrKeep (applyMessageUpdated c msg s)) = false := by
  have h1 : (applyMessageUpdated c msg s).revertStack = [] := by
    unfold applyMessageUpdated
    rw [if_neg (by rw [hnew]; exact Bool.false_ne_true)]
  have h2 : redo (applyMessageUpdated c msg s) = none := by
    unfold redo
    rw [h1]
    rfl
  refine ⟨h1, ?_⟩
  unfold redoOrKeep
  rw [h2]
  show canRedo (applyMessageUpdated c msg s) = false
  unfold canRedo
  rw [h1]
  rfl

/-- Witness for claim C4 at a concrete input: a reverted one-message session
receiving a genuinely new message m9. -/
theorem append_clears_revert_stack_witness :
    ((⟨[⟨"m1", "user", "complete", []⟩], "idle",
        [⟨[⟨"m2", "user", "complete", []⟩]⟩]⟩ : SessionState).revertStack ≠ []
      ∧ (⟨[⟨"m1", "user", "complete", []⟩], "idle",
          [⟨[⟨"m2", "user", "complete", []⟩]⟩]⟩ : SessionState).messages.any
          (fun m => m.id = (⟨"S", "m9", "user", "complete"⟩ : ApiMessage).id) =
        false)
    ∧ ((applyMessageUpdated 500 ⟨"S", "m9", "user", "complete"⟩
          (⟨[⟨"m1", "user", "complete", []⟩], "idle",
            [⟨[⟨"m2", "user", "complete", []⟩]⟩]⟩ : SessionState)).revertStack =
        []
      ∧ canRedo (redoOrKeep (applyMessageUpdated 500
          ⟨"S", "m9", "user", "complete"⟩
          (⟨[⟨"m1", "user", "complete", []⟩], "idle",
            [⟨[⟨"m2", "user", "complete", []⟩]⟩]⟩ : SessionState))) = false) :=
  ⟨⟨by decide, by decide⟩,
    append_clears_revert_stack 500 _ _ (by decide) (by decide)⟩

/-- Claim C6: a revert whose target index is out of range for the session —
in particular any negative index — is rejected: the caller receives the
failure signal false and the session state is returned unchanged. -/
theorem out_of_range_revert_rejected (s : SessionState) (idx : Int)
    (h : idx < 0 ∨ (s.messages.length : Int) ≤ idx) :
    revertOp idx s = (false, s) := by
  have hnone : revert idx s = none := by
    unfold revert
    rw [if_neg]
    intro hcon
    obtain ⟨h1, h2⟩ := hcon
    rcases h with h | h <;> omega
  unfold revertOp
  rw [hnone]

/-- Witness for claim C6 at a concrete input: revert to index -1 on a
one-message session. -/
theorem out_of_range_revert_rejected_witness :
    ((-1 : Int) < 0
      ∨ (((⟨[⟨"m1", "user", "complete", []⟩], "idle", []⟩ :
          SessionState).messages.length : Int) ≤ -1))
    ∧ revertOp (-1) (⟨[⟨"m1", "user", "complete", []⟩], "idle", []⟩ :
        SessionState) =
      (false, (⟨[⟨"m1", "user", "complete", []⟩], "idle", []⟩ :
        SessionState)) :=
  ⟨by decide,
    out_of_range_revert_rejected _ (-1) (by decide)⟩

/-- Claim C5: for every permission or question event, the registered user
callback is invoked iff the event sessionID equals the registry current
session id, read fresh at dispatch time — a session switch immediately before
the event determines the filter regardless of the earlier current session —
and in particular a permission.asked for session A arriving while the current
session is B never invokes onPermissionAsked. -/
theorem callback_filter_reads_current_session_fresh :
    (∀ (ts : CallbackTraceState) (e : CallbackEvent) (sid : String),
        callbackSessionID e = some sid →
        (dispatchCallbackEvent ts e).invocations =
          ts.invocations ++
            (if ts.store.getCurrentSessionId = some sid then callbackEntry e
              else []))
    ∧ (∀ (ts : CallbackTraceState) (e : CallbackEvent) (sid s2 : String),
        callbackSessionID e = some sid →
        ([CallbackEvent.sessionSwitch s2, e].foldl dispatchCallbackEvent
            ts).invocations =
          ts.invocations ++
            (if (some s2 : Option String) = some sid then callbackEntry e
              else []))
    ∧ ([CallbackEvent.permissionAsked "A" "r"].foldl dispatchCallbackEvent
        ⟨⟨[], some "B"⟩, []⟩).invocations = [] := by
  refine ⟨?_, ?_, by decide⟩
  · intro ts e sid hsid
    cases e with
    | sessionSwitch s => simp [callbackSessionID] at hsid
    | permissionAsked s r =>
        have hs : s = sid := by simpa [callbackSessionID] using hsid
        subst hs
        by_cases h : ts.store.getCurrentSessionId = some s <;>
          simp [dispatchCallbackEvent, callbackEntry, h]
    | permissionReplied s r =>
        have hs : s = sid := by simpa [callbackSessionID] using hsid
        subst hs
        by_cases h : ts.store.getCurrentSessionId = some s <;>
          simp [dispatchCallbackEvent, callbackEntry, h]
    | questionAsked s r =>
        have hs : s = sid := by simpa [callbackSessionID] using hsid
        subst hs
        by_cases h : ts.store.getCurrentSessionId = some s <;>
          simp [dispatchCallbackEvent, callbackEntry, h]
    | questionReplied s r =>
        have hs : s = sid := by simpa [callbackSessionID] using hsid
        subst hs
        by_cases h : ts.store.getCurrentSessionId = some s <;>
          simp [dispatchCallbackEvent, callbackEntry, h]
    | questionRejected s r =>
        have hs : s = sid := by simpa [callbackSessionID] using hsid
        subst hs
        by_cases h : ts.store.getCurrentSessionId = some s <;>
          simp [dispatchCallbackEvent, callbackEntry, h]
  · intro ts e sid s2 hsid
    cases e with
    | sessionSwitch s => simp [callbackSessionID] at hsid
    | permissionAsked s r =>
        have hs : s = sid := by simpa [callbackSessionID] using hsid
        subst hs
        by_cases h : (some s2 : Option String) = some s <;>
          simp [dispatchCallbackEvent, callbackEntry,
            MessageStore.getCurrentSessionId, h]
    | permissionReplied s r =>
        have hs : s = sid := by simpa [callbackSessionID] using hsid
        subst hs
        by_cases h : (some s2 : Option String) = some s <;>
          simp [dispatchCallbackEvent, callbackEntry,
            MessageStore.getCurrentSessionId, h]
    | questionAsked s r =>
        have hs : s = sid := by simpa [callbackSessionID] using hsid
        subst hs
        by_cases h : (some s2 : Option String) = some s <;>
          simp [dispatchCallbackEvent, callbackEntry,
            MessageStore.getCurrentSessionId, h]
    | questionReplied s r =>
        have hs : s = sid := by simpa [callbackSessionID] using hsid
        subst hs
        by_cases h : (some s2 : Option String) = some s <;>
          simp [dispatchCallbackEvent, callbackEntry,
            MessageStore.getCurrentSessionId, h]
    | questionRejected s r =>
        have hs : s = sid := by simpa [callbackSessionID] using hsid
        subst hs
        by_cases h : (some s2 : Option String) = some s <;>
          simp [dispatchCallbackEvent, callbackEntry,
            MessageStore.getCurrentSessionId, h]

/-- Witness for claim C5 at a concrete input: permission.asked for session A
while the current session is B. -/
theorem callback_filter_reads_current_session_fresh_witness :
    callbackSessionID (CallbackEvent.permissionAsked "A" "r") = some "A"
    ∧ (dispatchCallbackEvent ⟨⟨[], some "B"⟩, []⟩
        (CallbackEvent.permissionAsked "A" "r")).invocations =
      (⟨⟨[], some "B"⟩, []⟩ : CallbackTraceState).invocations ++
        (if (⟨⟨[], some "B"⟩, []⟩ :
              CallbackTraceState).store.getCurrentSessionId = some "A"
          then callbackEntry (CallbackEvent.permissionAsked "A" "r")
          else []) :=
  ⟨rfl,
    (callback_filter_reads_current_session_fresh).1 ⟨⟨[], some "B"⟩, []⟩
      (CallbackEvent.permissionAsked "A" "r") "A" rfl⟩

/-- Claim C7: a part.updated event whose messageId matches no existing message
synthesizes a placeholder message with status streaming holding the part, so
no part is ever orphaned; the part upsert replaces an existing part with the
same id preserving the id order, appends a genuinely new part at the end, and
keeps every other part. -/
theorem part_update_synthesizes_placeholder_and_upserts
    (c : Nat) (p : Part) (s : SessionState) (hc : 1 ≤ c)
    (hnone : s.messages.any (fun m => m.id = p.messageID) = false) :
    ((applyPartUpdated c p s).messages.find? (fun m => m.id = p.messageID) =
      some ⟨p.messageID, "assistant", "streaming", [p]⟩)
    ∧ (∀ parts : List Part, parts.any (fun q => q.id = p.id) = true →
        (upsertPart p parts).map (fun q => q.id) = parts.map (fun q => q.id))
    ∧ (∀ parts : List Part, parts.any (fun q => q.id = p.id) = false →
        upsertPart p parts = parts ++ [p])
    ∧ (∀ (parts : List Part) (q : Part), q ∈ parts → ¬(q.id = p.id) →
        q ∈ upsertPart p parts) := by
  refine ⟨?_, ?_, ?_, ?_⟩
  · unfold applyPartUpdated
    rw [if_neg (by rw [hnone]; exact Bool.false_ne_true)]
    dsimp only
    rw [trimHistory_append_single c hc]
    rw [find?_append_of_none _ _ _
      (find?_eq_none_of_any_eq_false _ _ (any_drop_eq_false _ _ _ hnone)),
      List.find?_cons_of_pos _ (by simp)]
  · intro parts hq
    unfold upsertPart
    rw [if_pos hq, List.map_map]
    congr 1
    funext q
    by_cases h : q.id = p.id <;> simp [h]
  · intro parts hq
    unfold upsertPart
    rw [if_neg (by rw [hq]; exact Bool.false_ne_true)]
  · intro parts q hqmem hqid
    unfold upsertPart
    split
    · simpa [hqid] using
        List.mem_map_of_mem (fun r => if r.id = p.id then p else r) hqmem
    · exact List.mem_append_left _ hqmem

/-- Witness for claim C7 at a concrete input: a part for the unknown message
m1 arriving into an empty session with ceiling 1. -/
theorem part_update_synthesizes_placeholder_and_upserts_witness :
    (1 ≤ 1 ∧ (emptySession : SessionState).messages.any
        (fun m => m.id = (⟨"p1", "S", "m1", "text", "x"⟩ : Part).messageID) =
      false)
    ∧ (((applyPartUpdated 1 ⟨"p1", "S", "m1", "text", "x"⟩
          emptySession).messages.find?
          (fun m => m.id = (⟨"p1", "S", "m1", "text", "x"⟩ : Part).messageID) =
        some ⟨"m1", "assistant", "streaming", [⟨"p1", "S", "m1", "text", "x"⟩]⟩)
      ∧ (∀ parts : List Part,
          parts.any (fun q => q.id = (⟨"p1", "S", "m1", "text", "x"⟩ :
            Part).id) = true →
          (upsertPart ⟨"p1", "S", "m1", "text", "x"⟩ parts).map
              (fun q => q.id) = parts.map (fun q => q.id))
      ∧ (∀ parts : List Part,
          parts.any (fun q => q.id = (⟨"p1", "S", "m1", "text", "x"⟩ :
            Part).id) = false →
          upsertPart ⟨"p1", "S", "m1", "text", "x"⟩ parts =
            parts ++ [⟨"p1", "S", "m1", "text", "x"⟩])
      ∧ (∀ (parts : List Part) (q : Part), q ∈ parts →
          ¬(q.id = (⟨"p1", "S", "m1", "text", "x"⟩ : Part).id) →
          q ∈ upsertPart ⟨"p1", "S", "m1", "text", "x"⟩ parts)) :=
  ⟨⟨by decide, by decide⟩,
    part_update_synthesizes_placeholder_and_upserts 1
      ⟨"p1", "S", "m1", "text", "x"⟩ emptySession (by decide) (by decide)⟩

/-- Claim C8: within a single animation frame, at most one scroll-to-bottom
notification is requested no matter how many part.updated events are
dispatched in it, while every one of those events still mutates store state
immediately — the coalescing throttles only the notification, never the state
update. -/
theorem scroll_notification_coalesced_per_frame :
    ∀ (st0 : MessageStore) (events : List ApiPart),
      ((events.foldl onPartUpdatedFrame ⟨st0, false, 0⟩).scrollRequests ≤ 1)
      ∧ (events.foldl onPartUpdatedFrame ⟨st0, false, 0⟩).store =
          events.foldl partEventStoreStep st0 := by
  intro st0 events
  constructor
  · have h := scrollRequests_foldl_le events ⟨st0, false, 0⟩
    simpa using h
  · exact store_foldl_onPartUpdatedFrame events ⟨st0, false, 0⟩

/-- Claim C9: every session.error event sets the session status to error
regardless of the error name; abort-type names (MessageAbortedError,
AbortError) only suppress the console log, never the status transition. -/
theorem session_error_sets_error_status_even_for_aborts :
    (∀ (st : MessageStore) (e : ApiSessionError),
        ((onSessionError st e).1.getSession e.sessionID).status = "error")
    ∧ (∀ (st : MessageStore) (e : ApiSessionError),
        (onSessionError st e).2 = !isAbortError e)
    ∧ isAbortError ⟨"S", "MessageAbortedError", "x"⟩ = true
    ∧ isAbortError ⟨"S", "AbortError", "x"⟩ = true
    ∧ ((onSessionError ⟨[], none⟩
          ⟨"S", "MessageAbortedError", "x"⟩).1.getSession "S").status = "error"
    ∧ (onSessionError ⟨[], none⟩ ⟨"S", "MessageAbortedError", "x"⟩).2 =
        false := by
  refine ⟨?_, fun st e => rfl, by decide, by decide, by decide, by decide⟩
  intro st e
  show ((st.setSession e.sessionID
      (applySessionError (st.getSession e.sessionID))).getSession
      e.sessionID).status = "error"
  rw [getSession_setSession]
  rfl

/-- Claim C10: a part.updated event lacking the sessionID field or the
messageID field is dropped before reaching the merge engine: no store
mutation is performed and no scroll notification is scheduled — the frame
state is unchanged. -/
theorem malformed_part_event_is_dropped (fs : FrameState) (p : ApiPart)
    (h : p.sessionID = none ∨ p.messageID = none) :
    onPartUpdatedFrame fs p = fs := by
  obtain ⟨psid, pmid, pid, pkind, ppay⟩ := p
  rcases h with h | h
  · have hn : psid = none := h
    subst hn
    rfl
  · have hn : pmid = none := h
    subst hn
    cases psid <;> rfl

/-- Witness for claim C10 at a concrete input: a part event with no sessionID
field. -/
theorem malformed_part_event_is_dropped_witness :
    ((⟨none, some "m1", "p1", "text", "x"⟩ : ApiPart).sessionID = none
      ∨ (⟨none, some "m1", "p1", "text", "x"⟩ : ApiPart).messageID = none)
    ∧ onPartUpdatedFrame ⟨⟨[], none⟩, false, 0⟩
        (⟨none, some "m1", "p1", "text", "x"⟩ : ApiPart) =
      ⟨⟨[], none⟩, false, 0⟩ :=
  ⟨Or.inl rfl,
    malformed_part_event_is_dropped ⟨⟨[], none⟩, false, 0⟩ _ (Or.inl rfl)⟩

end OpenCodeUI
